import Mathlib

/-!
Verification development for the Decomposition_App repository.

The numeric model: Python/pandas double arithmetic is embedded as exact
rational arithmetic.  A value of type `F := Option ℚ` models one double:
`some q` is the finite value `q`, and `none` models a non-finite double
(NaN or ±infinity).  Every arithmetic operation propagates `none`, and
division by zero produces `none`, mirroring numpy/pandas elementwise
semantics (`x/0 = ±inf`, `0/0 = nan`, with no exception raised).
Plain Python `float / float` with a zero denominator, by contrast,
raises `ZeroDivisionError`; where the source performs such a division
the embedding returns an `Except.error`.
-/

namespace DecompApp

/-- Model of one pandas float cell: `some q` is finite, `none` is NaN/±inf. -/
abbrev F := Option ℚ

/-- Float addition: non-finite operands propagate. -/
def fadd : F → F → F
  | some a, some b => some (a + b)
  | _, _ => none

/-- Float subtraction: non-finite operands propagate. -/
def fsub : F → F → F
  | some a, some b => some (a - b)
  | _, _ => none

/-- Float multiplication: non-finite operands propagate. -/
def fmul : F → F → F
  | some a, some b => some (a * b)
  | _, _ => none

/-- Elementwise float division: a zero denominator yields a non-finite value
(numpy semantics: `x/0 = inf`, `0/0 = nan`), modeled as `none`. -/
def fdiv : F → F → F
  | some a, some b => if b = 0 then none else some (a / b)
  | _, _ => none

/-- Float absolute value. -/
def fabs : F → F := Option.map (fun q => |q|)

/-- Float sum of a list (numpy `.sum()`; empty sum is `0`). -/
def fsum (l : List F) : F := l.foldl fadd (some 0)

/-- Mean of a pandas numeric column: the mean of an empty series is NaN. -/
def qmean (l : List ℚ) : F :=
  if l = [] then none else some (l.sum / l.length)

/-!
## Module `modules/demographic.py`, `DemographicDecomposition.analyze`

One input row of the bound columns.  The group label is kept as a string;
the four numeric cells are finite rationals (the source raises `ValueError`
on missing columns or null cells before any computation, so the embedding's
structured rows start past that validation).
-/

/-- One row of the demographic input: group label, period-1 weight/value,
period-2 weight/value. -/
structure DemoRow where
  group : String
  w1 : ℚ
  y1 : ℚ
  w2 : ℚ
  y2 : ℚ
deriving DecidableEq

/-- Rescaling of one weight cell when normalization triggers:
`data[w_col] = (data[w_col] / total_w) * 100`.  A zero column total makes
the pandas division non-finite (`0/0 = NaN`, `w/0 = ±inf`). -/
def scaleWeight (total : ℚ) (w : ℚ) : F :=
  if total = 0 then none else some (w / total * 100)

/-- The weight-normalization block of `analyze`: if `normalize` is set and
the column total differs from 100 by more than 0.1, every weight in the
column is rescaled to `w / total * 100`; otherwise the column is kept. -/
def normWeights (normalize : Bool) (ws : List ℚ) : List F :=
  let total := ws.sum
  if normalize ∧ |total - 100| > 1 / 10 then ws.map (scaleWeight total)
  else ws.map some

/-- `np.average(values, weights)`: `sum(w*y)/sum(w)`, raising
`ZeroDivisionError` when the weights sum to exactly zero (a NaN weight sum
is not zero, so it passes the check and the result is NaN). -/
def weightedMean (ws : List F) (ys : List ℚ) : Except String F :=
  let scl := fsum ws
  if scl = some 0 then .error "ZeroDivisionError: Weights sum to zero"
  else .ok (fdiv (fsum (List.zipWith (fun w y => fmul w (some y)) ws ys)) scl)

/-- One row of `group_results` as built in the per-row loop of `analyze`. -/
structure GroupResult where
  group : String
  w1 : F
  y1 : ℚ
  w2 : F
  y2 : ℚ
  effect_composition : F
  effect_behavior : F
  total_contribution : F
  contribution_percent : F
  contribution_abs : F
deriving DecidableEq

/-- The body of the per-row loop of `analyze`:
`effect_composition = ((y2+y1)/2)*(w2-w1)/100`,
`effect_behavior = ((w2+w1)/2)*(y2-y1)/100`, their sum, and the
percentage share (`0` when `delta_Y == 0`; a NaN `delta_Y` is not `== 0`
so the division is performed). -/
def groupResult (dY : F) (g : String) (w1 w2 : F) (y1 y2 : ℚ) : GroupResult :=
  let comp := fdiv (fmul (fdiv (fadd (some y2) (some y1)) (some 2)) (fsub w2 w1)) (some 100)
  let beh := fdiv (fmul (fdiv (fadd w2 w1) (some 2)) (fsub (some y2) (some y1))) (some 100)
  let tot := fadd comp beh
  let pct := if dY = some 0 then some 0 else fmul (fdiv tot dY) (some 100)
  { group := g, w1 := w1, y1 := y1, w2 := w2, y2 := y2,
    effect_composition := comp, effect_behavior := beh,
    total_contribution := tot, contribution_percent := pct,
    contribution_abs := fabs tot }

/-- The `aggregate_results` block of the `analyze` return value. -/
structure AggregateResults where
  Y1 : F
  Y2 : F
  total_change : F
  composition_effect : F
  behavior_effect : F
  composition_percent : F
  behavior_percent : F
  verification : F
deriving DecidableEq

/-- The `analyze` return value (results dataframe, aggregates, and the
metadata the source records). -/
structure AnalyzeResult where
  group_results : List GroupResult
  aggregate : AggregateResults
  num_groups : ℕ
  normalized : Bool
deriving DecidableEq

/-- Tail of `DemographicDecomposition.analyze` once the two weighted means
have been computed: the per-row loop building `group_results`, the three
totals, the percentage shares (`0` when `delta_Y == 0`), and the
verification residual `abs(total_contrib - delta_Y)`. -/
def analyzeRest (df : List DemoRow) (normalize : Bool) (w1n w2n : List F)
    (Y1 Y2 : F) : AnalyzeResult :=
  let dY := fsub Y2 Y1
  let grs := List.zipWith
    (fun (r : DemoRow) (w : F × F) => groupResult dY r.group w.1 w.2 r.y1 r.y2)
    df (w1n.zip w2n)
  let total_composition := fsum (grs.map (·.effect_composition))
  let total_behavior := fsum (grs.map (·.effect_behavior))
  let total_contrib := fsum (grs.map (·.total_contribution))
  let composition_percent :=
    if dY = some 0 then some 0 else fmul (fdiv total_composition dY) (some 100)
  let behavior_percent :=
    if dY = some 0 then some 0 else fmul (fdiv total_behavior dY) (some 100)
  { group_results := grs,
    aggregate :=
      { Y1 := Y1, Y2 := Y2, total_change := dY,
        composition_effect := total_composition,
        behavior_effect := total_behavior,
        composition_percent := composition_percent,
        behavior_percent := behavior_percent,
        verification := fabs (fsub total_contrib dY) },
    num_groups := df.length,
    normalized := normalize }

/-- `DemographicDecomposition.analyze` (src/modules/demographic.py:20-135).
Normalizes the two weight columns (when requested and off-tolerance),
computes the two weighted means (`np.average` raises `ZeroDivisionError`
on a weight sum of exactly zero, which propagates out uncaught), then the
per-row Kitagawa effects and aggregate totals via `analyzeRest`.  The
coherence check at line 102 only emits a `warnings.warn`, so it does not
affect the returned value and is not an error path. -/
def analyze (df : List DemoRow) (normalize : Bool) : Except String AnalyzeResult :=
  let w1n := normWeights normalize (df.map (·.w1))
  let w2n := normWeights normalize (df.map (·.w2))
  match weightedMean w1n (df.map (·.y1)) with
  | .error e => .error e
  | .ok Y1 =>
    match weightedMean w2n (df.map (·.y2)) with
    | .error e => .error e
    | .ok Y2 => .ok (analyzeRest df normalize w1n w2n Y1 Y2)

/-! ## Evaluation lemmas for the float model -/

theorem fadd_some (a b : ℚ) : fadd (some a) (some b) = some (a + b) := rfl

theorem fsub_some (a b : ℚ) : fsub (some a) (some b) = some (a - b) := rfl

theorem fmul_some (a b : ℚ) : fmul (some a) (some b) = some (a * b) := rfl

theorem fdiv_some (a b : ℚ) (h : b ≠ 0) : fdiv (some a) (some b) = some (a / b) := by
  simp [fdiv, h]

theorem fsub_none_right (x : F) : fsub x none = none := by cases x <;> rfl

theorem fdiv_none_right (x : F) : fdiv x none = none := by cases x <;> rfl

theorem foldl_fadd_none (l : List F) : l.foldl fadd none = none := by
  induction l with
  | nil => rfl
  | cons a l ih => simpa [fadd] using ih

theorem foldl_fadd_some_map (l : List ℚ) : ∀ a : ℚ,
    (l.map some).foldl fadd (some a) = some (a + l.sum) := by
  induction l with
  | nil => intro a; simp [fadd]
  | cons b l ih => intro a; simp only [List.map_cons, List.foldl_cons, fadd_some, ih,
      List.sum_cons]; ring_nf

theorem fsum_map_some (l : List ℚ) : fsum (l.map some) = some l.sum := by
  simpa using foldl_fadd_some_map l 0

theorem fsum_map_none {α : Type} (l : List α) (h : l ≠ []) :
    fsum (l.map fun _ => (none : F)) = none := by
  cases l with
  | nil => exact absurd rfl h
  | cons a l => simp [fsum, fadd, foldl_fadd_none]

theorem weightedMean_map_some (ws ys : List ℚ) (h : ws.sum ≠ 0) :
    weightedMean (ws.map some) ys =
      .ok (some ((List.zipWith (fun w y => w * y) ws ys).sum / ws.sum)) := by
  have hz : List.zipWith (fun w y => fmul w (some y)) (ws.map some) ys =
      (List.zipWith (fun w y => w * y) ws ys).map some := by
    rw [List.zipWith_map_left, List.map_zipWith]
    simp only [fmul_some]
  unfold weightedMean
  rw [fsum_map_some, hz, fsum_map_some, if_neg (by simpa using h),
    fdiv_some _ _ h]

theorem groupResult_total_some (dY : F) (g : String) (w1 w2 y1 y2 : ℚ) :
    (groupResult dY g (some w1) (some w2) y1 y2).total_contribution =
      some ((w2 * y2 - w1 * y1) / 100) := by
  simp only [groupResult, fadd_some, fsub_some, fmul_some,
    fdiv_some _ (2 : ℚ) (by norm_num), fdiv_some _ (100 : ℚ) (by norm_num)]
  congr 1
  ring

theorem sum_map_div {α : Type} (l : List α) (f : α → ℚ) (c : ℚ) :
    (l.map fun x => f x / c).sum = (l.map f).sum / c := by
  induction l with
  | nil => simp
  | cons a l ih => simp [ih, div_add_div_same]

theorem sum_map_const_mul (c : ℚ) (ws : List ℚ) :
    (ws.map fun w => c * w).sum = c * ws.sum := by
  induction ws with
  | nil => simp
  | cons a l ih => simp only [List.map_cons, List.sum_cons, ih]; ring

theorem sum_map_sub {α : Type} (l : List α) (f g : α → ℚ) :
    (l.map fun x => f x - g x).sum = (l.map f).sum - (l.map g).sum := by
  induction l with
  | nil => simp
  | cons a l ih => simp only [List.map_cons, List.sum_cons, ih]; ring

theorem analyzeRest_total_change (df : List DemoRow) (nrm : Bool) (w1n w2n : List F)
    (Y1 Y2 : F) :
    (analyzeRest df nrm w1n w2n Y1 Y2).aggregate.total_change = fsub Y2 Y1 := rfl

theorem analyze_eq_ok (df : List DemoRow) (nrm : Bool) (Y1 Y2 : F)
    (h1 : weightedMean (normWeights nrm (df.map (·.w1))) (df.map (·.y1)) = .ok Y1)
    (h2 : weightedMean (normWeights nrm (df.map (·.w2))) (df.map (·.y2)) = .ok Y2) :
    analyze df nrm = .ok (analyzeRest df nrm (normWeights nrm (df.map (·.w1)))
      (normWeights nrm (df.map (·.w2))) Y1 Y2) := by
  simp only [analyze, h1, h2]

theorem normWeights_of_sum_100 (nrm : Bool) (ws : List ℚ) (h : ws.sum = 100) :
    normWeights nrm ws = ws.map some := by
  unfold normWeights
  rw [h]
  norm_num

theorem zipWith_map_same {α β γ δ : Type} (f : β → γ → δ) (g : α → β) (h : α → γ)
    (l : List α) : List.zipWith f (l.map g) (l.map h) = l.map fun a => f (g a) (h a) := by
  rw [List.zipWith_map_left, List.zipWith_map_right, List.zipWith_same]

theorem zipWith_self_map {α β γ : Type} (f : α → β → γ) (h : α → β) (l : List α) :
    List.zipWith f l (l.map h) = l.map fun a => f a (h a) := by
  rw [List.zipWith_map_right, List.zipWith_same]

theorem grs_eval (df : List DemoRow) (dY : F) :
    (List.zipWith
      (fun (r : DemoRow) (w : F × F) => groupResult dY r.group w.1 w.2 r.y1 r.y2)
      df ((df.map fun r => some r.w1).zip (df.map fun r => some r.w2))) =
    df.map fun r => groupResult dY r.group (some r.w1) (some r.w2) r.y1 r.y2 := by
  rw [List.zip_map', zipWith_self_map]

/-! ## Claim C1: additivity of the weighted-group decomposition -/

/-- Claim C1 (amended): for every successful `analyze` call in which each
period's weight column sums to exactly 100 (the situation normalization is
meant to establish), the sum of the per-group `total_contribution` values
equals `Y2 - Y1` exactly, for either value of `normalize`.  The claim's
original "regardless of what the raw weight sums are" is refuted by
`analyze_additivity_fails_for_raw_sums`: the per-row effects divide by the
hard-coded constant 100, not by the actual weight sums. -/
theorem analyze_additivity_sum100 (df : List DemoRow) (nrm : Bool)
    (h1 : (df.map (·.w1)).sum = 100) (h2 : (df.map (·.w2)).sum = 100) :
    ∃ r, analyze df nrm = .ok r ∧
      fsum (r.group_results.map (·.total_contribution)) = r.aggregate.total_change := by
  have n1 := normWeights_of_sum_100 nrm _ h1
  have n2 := normWeights_of_sum_100 nrm _ h2
  have hz1 : List.zipWith (fun w y => w * y) (df.map (·.w1)) (df.map (·.y1)) =
      df.map fun r => r.w1 * r.y1 := zipWith_map_same _ _ _ df
  have hz2 : List.zipWith (fun w y => w * y) (df.map (·.w2)) (df.map (·.y2)) =
      df.map fun r => r.w2 * r.y2 := zipWith_map_same _ _ _ df
  have hw1 : weightedMean (normWeights nrm (df.map (·.w1))) (df.map (·.y1)) =
      .ok (some ((df.map fun r => r.w1 * r.y1).sum / 100)) := by
    rw [n1, weightedMean_map_some _ _ (by rw [h1]; norm_num), h1, hz1]
  have hw2 : weightedMean (normWeights nrm (df.map (·.w2))) (df.map (·.y2)) =
      .ok (some ((df.map fun r => r.w2 * r.y2).sum / 100)) := by
    rw [n2, weightedMean_map_some _ _ (by rw [h2]; norm_num), h2, hz2]
  refine ⟨_, analyze_eq_ok df nrm _ _ hw1 hw2, ?_⟩
  rw [analyzeRest, n1, n2]
  simp only [List.map_map, Function.comp_def]
  rw [grs_eval]
  simp only [List.map_map, Function.comp_def, groupResult_total_some, fsub_some]
  have : df.map (fun r => some ((r.w2 * r.y2 - r.w1 * r.y1) / 100)) =
      (df.map fun r => (r.w2 * r.y2 - r.w1 * r.y1) / 100).map some := by
    rw [List.map_map]; rfl
  rw [this, fsum_map_some, sum_map_div, sum_map_sub, sub_div]

/-- Claim C1 witness: the amended additivity theorem applied to the
two-row scenario dataset, whose weight columns sum to 100 in both periods. -/
theorem analyze_additivity_sum100_witness :
    (([⟨"A", 40, 10, 60, 10⟩, ⟨"B", 60, 20, 40, 20⟩] : List DemoRow).map (·.w1)).sum = 100 ∧
    ∃ r, analyze [⟨"A", 40, 10, 60, 10⟩, ⟨"B", 60, 20, 40, 20⟩] false = .ok r ∧
      fsum (r.group_results.map (·.total_contribution)) = r.aggregate.total_change :=
  ⟨by norm_num, analyze_additivity_sum100 _ false (by norm_num) (by norm_num)⟩

/-- Claim C1 counterexample: with `normalize = false` and raw weights that
sum to 50 in each period, the summed contributions (5) differ from
`Y2 - Y1` (10) by far more than 1e-6, so the claim's "regardless of whether
normalize is true or false and regardless of what the raw weight sums are"
is false on the code. -/
theorem analyze_additivity_fails_for_raw_sums :
    (analyze [⟨"A", 50, 10, 50, 20⟩] false).map
      (fun r => (fsum (r.group_results.map (·.total_contribution)),
        r.aggregate.total_change)) = .ok (some 5, some 10) ∧
    ¬ (|(5 : ℚ) - 10| ≤ 1 / 1000000) := by
  constructor
  · have h1 : normWeights false [(50 : ℚ)] = [some 50] := by norm_num [normWeights]
    have h2 : weightedMean [some 50] [10] = .ok (some 10) := by
      norm_num [weightedMean, fsum, List.foldl, fadd_some, fdiv, fmul]
    have h3 : weightedMean [some 50] [20] = .ok (some 20) := by
      norm_num [weightedMean, fsum, List.foldl, fadd_some, fdiv, fmul]
    simp only [analyze, List.map_cons, List.map_nil, h1, h2, h3, analyzeRest,
      List.zip_cons_cons, List.zip_nil_right, List.zipWith_cons_cons,
      List.zipWith_nil_right, Except.map]
    norm_num [groupResult, fsum, List.foldl, fadd_some, fsub_some, fmul_some, fdiv,
      fabs, fadd, fsub, fmul]
  · norm_num

/-! ## Claim C4: the spec's demographic scenario -/

/-- Claim C4 (amended): on the scenario rows
`[(A, w1=40, y1=10, w2=60, y2=10), (B, w1=60, y1=20, w2=40, y2=20)]` with
normalization off, `analyze` returns `Y1=16`, `Y2=14`, `total_change=-2`,
and composition effects `A=+2.0`, `B=-4.0` (behavior effects are 0) — the
values the stated per-group formulas actually produce.  The claim's
composition effects `A=+1.0, B=-1.0` are refuted by
`analyze_scenario_composition_not_one`. -/
theorem analyze_demographic_scenario :
    (analyze [⟨"A", 40, 10, 60, 10⟩, ⟨"B", 60, 20, 40, 20⟩] false).map
      (fun r => (r.aggregate.Y1, r.aggregate.Y2, r.aggregate.total_change,
        r.group_results.map (·.effect_composition),
        r.group_results.map (·.effect_behavior))) =
    .ok (some 16, some 14, some (-2), [some 2, some (-4)], [some 0, some 0]) := by
  have h1 : normWeights false [(40 : ℚ), 60] = [some 40, some 60] := by
    norm_num [normWeights]
  have h2 : normWeights false [(60 : ℚ), 40] = [some 60, some 40] := by
    norm_num [normWeights]
  have h3 : weightedMean [some 40, some 60] [10, 20] = .ok (some 16) := by
    norm_num [weightedMean, fsum, List.foldl, fadd_some, fdiv, fmul]
  have h4 : weightedMean [some 60, some 40] [10, 20] = .ok (some 14) := by
    norm_num [weightedMean, fsum, List.foldl, fadd_some, fdiv, fmul]
  simp only [analyze, List.map_cons, List.map_nil, h1, h2, h3, h4, analyzeRest,
    List.zip_cons_cons, List.zip_nil_right, List.zipWith_cons_cons,
    List.zipWith_nil_right, Except.map]
  norm_num [groupResult, fsum, List.foldl, fadd_some, fsub_some, fmul_some, fdiv,
    fabs, fadd, fsub, fmul]

/-- Claim C4 counterexample: the code's composition effect for group A on
the scenario rows is `+2.0`, not the `+1.0` asserted by the claim (and B's
is `-4.0`, not `-1.0`). -/
theorem analyze_scenario_composition_not_one :
    (analyze [⟨"A", 40, 10, 60, 10⟩, ⟨"B", 60, 20, 40, 20⟩] false).map
      (fun r => r.group_results.map (·.effect_composition)) =
      .ok [some 2, some (-4)] ∧ ¬ ((2 : ℚ) = 1 ∧ (-4 : ℚ) = -1) := by
  constructor
  · have h1 : normWeights false [(40 : ℚ), 60] = [some 40, some 60] := by
      norm_num [normWeights]
    have h2 : normWeights false [(60 : ℚ), 40] = [some 60, some 40] := by
      norm_num [normWeights]
    have h3 : weightedMean [some 40, some 60] [10, 20] = .ok (some 16) := by
      norm_num [weightedMean, fsum, List.foldl, fadd_some, fdiv, fmul]
    have h4 : weightedMean [some 60, some 40] [10, 20] = .ok (some 14) := by
      norm_num [weightedMean, fsum, List.foldl, fadd_some, fdiv, fmul]
    simp only [analyze, List.map_cons, List.map_nil, h1, h2, h3, h4, analyzeRest,
      List.zip_cons_cons, List.zip_nil_right, List.zipWith_cons_cons,
      List.zipWith_nil_right, Except.map]
    norm_num [groupResult, fsum, List.foldl, fadd_some, fsub_some, fmul_some, fdiv,
      fabs, fadd, fsub, fmul]
  · norm_num

/-! ## Claim C8: zero weight sum under normalization -/

theorem fsub_none_left (x : F) : fsub none x = none := by cases x <;> rfl

theorem normWeights_true_zero_sum (ws : List ℚ) (h : ws.sum = 0) :
    normWeights true ws = ws.map fun _ => none := by
  simp only [normWeights]
  rw [h, if_pos (by norm_num)]
  apply List.map_congr_left
  intro w _
  simp [scaleWeight]

theorem weightedMean_map_none (l : List ℚ) (ys : List ℚ) (h : l ≠ []) :
    weightedMean (l.map fun _ => (none : F)) ys = .ok none := by
  unfold weightedMean
  rw [fsum_map_none _ h]
  simp [fdiv_none_right]

/-- Technical lemma: with `normalize = true` and a nonempty weight column,
`np.average` never hits its zero-weight-sum `ZeroDivisionError` — after the
normalization block the weight sum is either non-finite (zero raw sum), or
exactly 100 (rescaled), or inside the band `[99.9, 100.1]` (kept raw) —
so the weighted mean always returns. -/
theorem weightedMean_normTrue_ok (ws ys : List ℚ) (hne : ws ≠ []) :
    ∃ Y, weightedMean (normWeights true ws) ys = .ok Y := by
  have hscl : fsum (normWeights true ws) ≠ some 0 := by
    simp only [normWeights]
    split_ifs with htrig
    · rcases eq_or_ne ws.sum 0 with h0 | h0
      · have hz : ws.map (scaleWeight ws.sum) = ws.map fun _ => none := by
          apply List.map_congr_left
          intro w _
          simp [scaleWeight, h0]
        rw [hz, fsum_map_none _ hne]
        simp
      · have hmap : ws.map (scaleWeight ws.sum) =
            (ws.map fun w => 100 / ws.sum * w).map some := by
          rw [List.map_map]
          apply List.map_congr_left
          intro w _
          simp only [Function.comp_apply, scaleWeight, if_neg h0, Option.some.injEq]
          ring
        rw [hmap, fsum_map_some, sum_map_const_mul, div_mul_cancel₀ _ h0]
        simp
    · rw [fsum_map_some]
      push_neg at htrig
      have hband := htrig trivial
      rw [abs_le] at hband
      have hpos : (0 : ℚ) < ws.sum := by linarith [hband.1]
      exact fun hc => hpos.ne' (Option.some.inj hc)
  unfold weightedMean
  rw [if_neg hscl]
  exact ⟨_, rfl⟩

/-- Claim C8 (amended): for every nonempty dataset with `normalize`
requested, if a period's weight column sums to exactly 0 — either period,
and with the other period's weights arbitrary — `analyze` does NOT fail:
the pandas rescale divides by zero, that period's weights become
non-finite, and the call returns a result in which that period's aggregate
(`Y1` resp. `Y2`) and `total_change` are NaN.  No `DegenerateInputError`
(or any other error) is raised; the class does not define such an error. -/
theorem analyze_zero_weight_returns_nan (df : List DemoRow) (hne : df ≠ []) :
    ((df.map (·.w1)).sum = 0 →
      ∃ r, analyze df true = .ok r ∧ r.aggregate.Y1 = none ∧
        r.aggregate.total_change = none) ∧
    ((df.map (·.w2)).sum = 0 →
      ∃ r, analyze df true = .ok r ∧ r.aggregate.Y2 = none ∧
        r.aggregate.total_change = none) := by
  have hm1 : df.map (·.w1) ≠ [] := by
    simpa [List.map_eq_nil_iff] using hne
  have hm2 : df.map (·.w2) ≠ [] := by
    simpa [List.map_eq_nil_iff] using hne
  constructor
  · intro h0
    have n1 := normWeights_true_zero_sum _ h0
    have hw1 : weightedMean (normWeights true (df.map (·.w1))) (df.map (·.y1)) =
        .ok none := by
      rw [n1]
      exact weightedMean_map_none _ _ hm1
    obtain ⟨Y2, hw2⟩ := weightedMean_normTrue_ok (df.map (·.w2)) (df.map (·.y2)) hm2
    refine ⟨_, analyze_eq_ok df true none Y2 hw1 hw2, rfl, ?_⟩
    rw [analyzeRest_total_change]
    exact fsub_none_right _
  · intro h0
    have n2 := normWeights_true_zero_sum _ h0
    have hw2 : weightedMean (normWeights true (df.map (·.w2))) (df.map (·.y2)) =
        .ok none := by
      rw [n2]
      exact weightedMean_map_none _ _ hm2
    obtain ⟨Y1, hw1⟩ := weightedMean_normTrue_ok (df.map (·.w1)) (df.map (·.y1)) hm1
    refine ⟨_, analyze_eq_ok df true Y1 none hw1 hw2, rfl, ?_⟩
    rw [analyzeRest_total_change]
    exact fsub_none_left _

/-- Claim C8 witness: the amended theorem applied to the one-row dataset
`(w1=0, y1=5, w2=50, y2=5)` — the same rows as the counterexample, with an
arbitrary (non-100) period-2 weight sum. -/
theorem analyze_zero_weight_returns_nan_witness :
    ([⟨"A", 0, 5, 50, 5⟩] : List DemoRow) ≠ [] ∧
    (∃ r, analyze [⟨"A", 0, 5, 50, 5⟩] true = .ok r ∧ r.aggregate.Y1 = none ∧
      r.aggregate.total_change = none) :=
  ⟨by simp, (analyze_zero_weight_returns_nan _ (by simp)).1 (by norm_num)⟩

/-- Claim C8 counterexample: with one row `(w1=0, y1=5, w2=50, y2=5)` and
`normalize = true`, the period-1 weight sum is exactly 0, yet the call
returns successfully (`.ok`) with NaN (`none`) in `Y1` and `total_change` —
it neither raises a `DegenerateInputError` nor keeps the result finite. -/
theorem analyze_zero_weight_no_error_cex :
    (analyze [⟨"A", 0, 5, 50, 5⟩] true).map
      (fun r => (r.aggregate.Y1, r.aggregate.Y2, r.aggregate.total_change)) =
    .ok (none, some 5, none) := by
  have h1 : normWeights true [(0 : ℚ)] = [none] := by
    norm_num [normWeights, scaleWeight]
  have h2 : normWeights true [(50 : ℚ)] = [some 100] := by
    norm_num [normWeights, scaleWeight]
  have h3 : weightedMean [none] [5] = .ok none := by
    have hs : fsum [(none : F)] = none := rfl
    have hz : fsum (List.zipWith (fun w y => fmul w (some y)) [none] [5]) = none := rfl
    simp only [weightedMean, hs, hz]
    simp [fdiv_none_right]
  have h4 : weightedMean [some 100] [5] = .ok (some 5) := by
    norm_num [weightedMean, fsum, List.foldl, fadd_some, fdiv, fmul]
  simp only [analyze, List.map_cons, List.map_nil, h1, h2, h3, h4, analyzeRest,
    List.zip_cons_cons, List.zip_nil_right, List.zipWith_cons_cons,
    List.zipWith_nil_right, Except.map]
  norm_num [groupResult, fsum, List.foldl, fadd_some, fsub_some, fmul_some, fdiv,
    fabs, fadd, fsub, fmul]

/-! ## Claim C9: normalization invariance under weight rescaling -/

theorem scaleWeight_const_mul (c t : ℚ) (hc : c ≠ 0) (w : ℚ) :
    scaleWeight (c * t) (c * w) = scaleWeight t w := by
  unfold scaleWeight
  rcases eq_or_ne t 0 with h | h
  · simp [h]
  · rw [if_neg (mul_ne_zero hc h), if_neg h, mul_div_mul_left _ _ hc]

theorem normWeights_scale (c : ℚ) (hc : c ≠ 0) (ws : List ℚ)
    (h1 : |ws.sum - 100| > 1 / 10) (h2 : |c * ws.sum - 100| > 1 / 10) :
    normWeights true (ws.map fun w => c * w) = normWeights true ws := by
  unfold normWeights
  rw [sum_map_const_mul]
  rw [if_pos (by simpa using h2), if_pos (by simpa using h1), List.map_map]
  exact List.map_congr_left fun w _ => scaleWeight_const_mul c ws.sum hc w

theorem analyzeRest_w1_irrel (df : List DemoRow) (c : ℚ) (nrm : Bool)
    (w1n w2n : List F) (Y1 Y2 : F) :
    analyzeRest (df.map fun r => { r with w1 := c * r.w1 }) nrm w1n w2n Y1 Y2 =
      analyzeRest df nrm w1n w2n Y1 Y2 := by
  simp only [analyzeRest, List.zipWith_map_left, List.length_map]

/-- Claim C9 (amended): with `normalize = true`, multiplying all of one
period's weights by a positive constant `c` leaves every result unchanged
PROVIDED both the original and the scaled weight sums fall outside the
no-rescale tolerance band `|sum - 100| <= 0.1` (both columns are then
actually rescaled, and the factor `c` cancels).  The unconditional claim is
refuted by `analyze_normalize_scale_sensitive_cex`: a scaled sum landing
inside the tolerance band is left unrescaled and changes the per-group and
aggregate effects. -/
theorem analyze_normalize_scale_invariance (df : List DemoRow) (c : ℚ) (hc : 0 < c)
    (h1 : |(df.map (·.w1)).sum - 100| > 1 / 10)
    (h2 : |c * (df.map (·.w1)).sum - 100| > 1 / 10) :
    analyze (df.map fun r => { r with w1 := c * r.w1 }) true = analyze df true := by
  have e1 : (df.map fun r => ({ r with w1 := c * r.w1 } : DemoRow)).map (·.w1) =
      (df.map (·.w1)).map fun w => c * w := by
    simp [List.map_map, Function.comp_def]
  have e2 : (df.map fun r => ({ r with w1 := c * r.w1 } : DemoRow)).map (·.w2) =
      df.map (·.w2) := by simp [List.map_map, Function.comp_def]
  have e3 : (df.map fun r => ({ r with w1 := c * r.w1 } : DemoRow)).map (·.y1) =
      df.map (·.y1) := by simp [List.map_map, Function.comp_def]
  have e4 : (df.map fun r => ({ r with w1 := c * r.w1 } : DemoRow)).map (·.y2) =
      df.map (·.y2) := by simp [List.map_map, Function.comp_def]
  simp only [analyze, e1, e2, e3, e4, normWeights_scale c hc.ne' _ h1 h2,
    analyzeRest_w1_irrel]

/-- Claim C9 witness: the amended invariance theorem applied to a one-row
dataset with weight sum 50 and scale factor `c = 4` (both 50 and 200 are
outside the tolerance band). -/
theorem analyze_normalize_scale_invariance_witness :
    (0 : ℚ) < 4 ∧
    analyze (([⟨"A", 50, 10, 60, 20⟩] : List DemoRow).map
      fun r => { r with w1 := 4 * r.w1 }) true =
      analyze [⟨"A", 50, 10, 60, 20⟩] true :=
  ⟨by norm_num,
    analyze_normalize_scale_invariance _ 4 (by norm_num) (by norm_num) (by norm_num)⟩

/-- Claim C9 counterexample: scaling the period-1 weights of the dataset
`[(A, w1=100, y1=10, w2=100, y2=10)]` by the positive constant
`c = 2001/2000 = 1.0005` changes the aggregate composition effect from `0`
to `-1/200 = -0.005` under `normalize = true`: the scaled sum `100.05` sits
inside the `|sum - 100| <= 0.1` tolerance band, so it is never rescaled and
the raw scaled weights leak into the per-group formulas. -/
theorem analyze_normalize_scale_sensitive_cex :
    (analyze [⟨"A", 100, 10, 100, 10⟩] true).map
      (fun r => r.aggregate.composition_effect) = .ok (some 0) ∧
    (analyze [⟨"A", 2001 / 20, 10, 100, 10⟩] true).map
      (fun r => r.aggregate.composition_effect) = .ok (some (-(1 / 200))) ∧
    ¬ ((0 : ℚ) = -(1 / 200)) := by
  have h1 : normWeights true [(100 : ℚ)] = [some 100] := by
    norm_num [normWeights]
  have habs : |(2001 / 20 : ℚ) - 100| = 1 / 20 := by
    rw [show (2001 / 20 : ℚ) - 100 = 1 / 20 by norm_num]
    exact abs_of_pos (by norm_num)
  have h2 : normWeights true [(2001 / 20 : ℚ)] = [some (2001 / 20)] := by
    unfold normWeights
    rw [if_neg]
    · rfl
    · simp only [List.sum_cons, List.sum_nil, add_zero, habs]
      norm_num
  have h3 : weightedMean [some 100] [10] = .ok (some 10) := by
    norm_num [weightedMean, fsum, List.foldl, fadd_some, fdiv, fmul]
  have h4 : weightedMean [some (2001 / 20)] [10] = .ok (some 10) := by
    norm_num [weightedMean, fsum, List.foldl, fadd_some, fdiv, fmul]
  refine ⟨?_, ?_, by norm_num⟩
  · simp only [analyze, List.map_cons, List.map_nil, h1, h3, analyzeRest,
      List.zip_cons_cons, List.zip_nil_right, List.zipWith_cons_cons,
      List.zipWith_nil_right, Except.map]
    norm_num [groupResult, fsum, List.foldl, fadd_some, fsub_some, fmul_some, fdiv,
      fabs, fadd, fsub, fmul]
  · simp only [analyze, List.map_cons, List.map_nil, h2, h1, h4, h3, analyzeRest,
      List.zip_cons_cons, List.zip_nil_right, List.zipWith_cons_cons,
      List.zipWith_nil_right, Except.map]
    norm_num [groupResult, fsum, List.foldl, fadd_some, fsub_some, fmul_some, fdiv,
      fabs, fadd, fsub, fmul]

/-!
## Module `modules/mathematical.py`, `MathematicalDecomposition`

Scalar inputs here are plain Python floats (validated `isinstance(int, float)`),
so a division by zero raises `ZeroDivisionError` instead of producing NaN;
the guarded `A/B if B != 0 else np.nan` idiom produces NaN, modeled as `none`.
-/

/-- Result dictionary of `_decompose_ratio` (src/modules/mathematical.py:104-153). -/
structure RatioResult where
  A1 : ℚ
  B1 : ℚ
  Y1 : F
  A2 : ℚ
  B2 : ℚ
  Y2 : F
  delta_A : ℚ
  delta_B : ℚ
  delta_Y : F
  effect_A : ℚ
  effect_B : ℚ
  total_effect : ℚ
  contribution_A : F
  contribution_B : F
  A_bar : ℚ
  B_bar : ℚ
  Y_bar : F
deriving DecidableEq

/-- `MathematicalDecomposition._decompose_ratio`: `Y1 = A1/B1 if B1 != 0 else
np.nan` (same for `Y2`); midpoint averages; `effect_A = (1/B_bar)*(A2-A1)`
and `effect_B = -(A_bar/B_bar**2)*(B2-B1)` are plain float divisions, so a
zero `B_bar` raises `ZeroDivisionError`; contributions divide by `delta_Y`
unless it compares equal to 0 (a NaN `delta_Y` is not `== 0`). -/
def decomposeRatio (A1 B1 A2 B2 : ℚ) : Except String RatioResult :=
  let Y1 : F := if B1 ≠ 0 then some (A1 / B1) else none
  let Y2 : F := if B2 ≠ 0 then some (A2 / B2) else none
  let dY := fsub Y2 Y1
  let A_bar := (A1 + A2) / 2
  let B_bar := (B1 + B2) / 2
  let Y_bar := fdiv (fadd Y1 Y2) (some 2)
  if B_bar = 0 then .error "ZeroDivisionError: division by zero"
  else
    let eA := (1 / B_bar) * (A2 - A1)
    let eB := -(A_bar / B_bar ^ 2) * (B2 - B1)
    .ok { A1 := A1, B1 := B1, Y1 := Y1, A2 := A2, B2 := B2, Y2 := Y2,
          delta_A := A2 - A1, delta_B := B2 - B1, delta_Y := dY,
          effect_A := eA, effect_B := eB, total_effect := eA + eB,
          contribution_A :=
            if dY = some 0 then some 0 else fmul (fdiv (some eA) dY) (some 100),
          contribution_B :=
            if dY = some 0 then some 0 else fmul (fdiv (some eB) dY) (some 100),
          A_bar := A_bar, B_bar := B_bar, Y_bar := Y_bar }

/-! ## Claim C3: exactness of the ratio midpoint rule -/

/-- Claim C3 (amended): the midpoint-rule effects of the built-in ratio
formula sum to `delta_Y` exactly WHEN the two denominator values agree
(`B1 = B2`, both nonzero).  The claim's unrestricted "for every input ...
to machine precision" is refuted by `ratio_additivity_cex`: in general the
effects sum to `(A2*B1 - A1*B2)/B_bar^2` while `delta_Y` has denominator
`B1*B2`, and the two differ whenever `B1 != B2` and `A2*B1 != A1*B2`. -/
theorem ratio_additivity_when_B_equal (A1 B A2 : ℚ) (hB : B ≠ 0) :
    ∃ r, decomposeRatio A1 B A2 B = .ok r ∧ some r.total_effect = r.delta_Y := by
  have hBbar : ((B + B) / 2 : ℚ) ≠ 0 := by
    rw [show ((B + B) / 2 : ℚ) = B by ring]
    exact hB
  simp only [decomposeRatio, if_pos hB, if_neg hBbar]
  refine ⟨_, rfl, ?_⟩
  rw [fsub_some]
  congr 1
  have h2 : ((B + B) / 2 : ℚ) = B := by ring
  rw [h2]
  field_simp

/-- Claim C3 witness: the amended exact-additivity theorem applied to
`A1 = 1, B1 = B2 = 2, A2 = 5` (effects sum to 2, which equals `delta_Y`). -/
theorem ratio_additivity_when_B_equal_witness :
    (2 : ℚ) ≠ 0 ∧
    ∃ r, decomposeRatio 1 2 5 2 = .ok r ∧ some r.total_effect = r.delta_Y :=
  ⟨by norm_num, ratio_additivity_when_B_equal 1 2 5 (by norm_num)⟩

/-- Claim C3 counterexample: for `A1=0, B1=1, A2=1, B2=2` (both denominators
nonzero) the code's effects sum to `4/9` while `delta_Y = 1/2`; the gap
`1/18` is far beyond machine precision, so the claimed exact additivity of
the ratio rule is false. -/
theorem ratio_additivity_cex :
    (decomposeRatio 0 1 1 2).map (fun r => (r.total_effect, r.delta_Y)) =
      .ok (4 / 9, some (1 / 2)) ∧ ¬ (|(4 / 9 : ℚ) - 1 / 2| ≤ 1 / 1000000) := by
  constructor
  · norm_num [decomposeRatio, fsub, fadd, fmul, fdiv, Except.map]
  · rw [show (4 / 9 : ℚ) - 1 / 2 = -(1 / 18) by norm_num, abs_neg,
      abs_of_pos (by norm_num : (0 : ℚ) < 1 / 18)]
    norm_num

/-! ## Claim C6: Cobb-Douglas with differing alpha across periods -/

/-- Input of one period of the Cobb-Douglas decomposition: the values of
`A`, `K`, `L` and the exponent `α` supplied for that period. -/
structure CDPeriod where
  A : ℚ
  K : ℚ
  L : ℚ
  alpha : ℚ
deriving DecidableEq

/-- Result dictionary of `_decompose_cobb_douglas`
(src/modules/mathematical.py:254-292). -/
structure CDResult where
  delta_lnY : ℚ
  delta_lnA : ℚ
  delta_lnK : ℚ
  delta_lnL : ℚ
  technology_effect : ℚ
  capital_effect : ℚ
  labor_effect : ℚ
  total_effect : ℚ
  contribution_technology : ℚ
  contribution_capital : ℚ
  contribution_labor : ℚ
  alpha_value : ℚ
deriving DecidableEq

/-- `MathematicalDecomposition._decompose_cobb_douglas`.  `np.log` is
abstracted as the parameter `log : ℚ → ℚ` (real logarithms are not
rational); every algebraic step of the source is kept exactly, and the
claim-relevant behavior — which `α` is used, and that no error is raised —
does not depend on `log`.  The source line
`A2, K2, L2, _ = p2['A'], p2['K'], p2['L'], p2['α']` reads period 2's `α`
into `_` and discards it: `alpha` below is period 1's value throughout. -/
def decomposeCobbDouglas (log : ℚ → ℚ) (p1 p2 : CDPeriod) : Except String CDResult :=
  let alpha := p1.alpha
  let lnY1 := log p1.A + alpha * log p1.K + (1 - alpha) * log p1.L
  let lnY2 := log p2.A + alpha * log p2.K + (1 - alpha) * log p2.L
  let delta_lnY := lnY2 - lnY1
  let effect_A := log p2.A - log p1.A
  let effect_K := alpha * (log p2.K - log p1.K)
  let effect_L := (1 - alpha) * (log p2.L - log p1.L)
  .ok { delta_lnY := delta_lnY,
        delta_lnA := effect_A,
        delta_lnK := log p2.K - log p1.K,
        delta_lnL := log p2.L - log p1.L,
        technology_effect := effect_A,
        capital_effect := effect_K,
        labor_effect := effect_L,
        total_effect := effect_A + effect_K + effect_L,
        contribution_technology :=
          if delta_lnY = 0 then 0 else effect_A / delta_lnY * 100,
        contribution_capital :=
          if delta_lnY = 0 then 0 else effect_K / delta_lnY * 100,
        contribution_labor :=
          if delta_lnY = 0 then 0 else effect_L / delta_lnY * 100,
        alpha_value := alpha }

/-- Claim C6 (amended): when the supplied `α` differs between the two
periods, the Cobb-Douglas decomposition does NOT fail — it silently
computes the whole decomposition with period 1's `α` and ignores period 2's
(`decomposeCobbDouglas log p1 p2` is literally unchanged by replacing
period 2's `α` with anything).  No `InvalidParameterError` exists in the
code.  The original claim is refuted by `cobb_douglas_alpha_mismatch_cex`. -/
theorem cobb_douglas_ignores_period2_alpha (log : ℚ → ℚ) (p1 p2 : CDPeriod) (x : ℚ) :
    (∃ r, decomposeCobbDouglas log p1 p2 = .ok r ∧ r.alpha_value = p1.alpha) ∧
    decomposeCobbDouglas log p1 { p2 with alpha := x } =
      decomposeCobbDouglas log p1 p2 :=
  ⟨⟨_, rfl, rfl⟩, rfl⟩

/-- Claim C6 counterexample: a call with `α = 3/10` in period 1 and
`α = 7/10` in period 2 returns successfully (`.ok`), with the decomposition
computed from `α = 3/10` alone — it does not fail with
`InvalidParameterError` (or anything else). -/
theorem cobb_douglas_alpha_mismatch_cex :
    (decomposeCobbDouglas (fun x => x) ⟨1, 1, 1, 3 / 10⟩ ⟨1, 1, 1, 7 / 10⟩).map
      (·.alpha_value) = .ok (3 / 10) ∧ (3 / 10 : ℚ) ≠ 7 / 10 := by
  constructor
  · rfl
  · norm_num

/-! ## Claim C7: custom formulas and the missing generic decomposer -/

/-- The `Formula` dataclass of src/modules/mathematical.py. -/
structure Formula where
  name : String
  expression : String
  vars : List String
  decomposition_rule : String
deriving DecidableEq

/-- Keys of the built-in `FORMULAS` dictionary. -/
def builtinFormulaNames : List String :=
  ["ratio", "product", "product_simple", "demographic_dividend", "cobb_douglas"]

/-- Variable lists of the built-in `FORMULAS` entries. -/
def builtinVariables (ftype : String) : List String :=
  if ftype = "ratio" then ["A", "B"]
  else if ftype = "product" then ["G", "k", "P"]
  else if ftype = "product_simple" then ["A", "B"]
  else if ftype = "demographic_dividend" then ["G", "A", "P"]
  else ["A", "K", "L", "α"]

/-- Return value of `_derive_decomposition_rule`
(src/modules/mathematical.py:323-327): a constant placeholder string — it
ignores the expression and the symbols and performs no symbolic
differentiation. -/
def deriveDecompositionRule : String :=
  "Decomposition generique (calcul symbolique necessaire)"

/-- ASCII letter test, the `[A-Za-z]` class of the source regex. -/
def isAlphaChar (c : Char) : Bool := ('a' ≤ c ∧ c ≤ 'z') ∨ ('A' ≤ c ∧ c ≤ 'Z')

/-- `[A-Za-z0-9_]` class of the source regex. -/
def isIdentChar (c : Char) : Bool := isAlphaChar c ∨ ('0' ≤ c ∧ c ≤ '9') ∨ c = '_'

/-- Scanner for `re.findall(r'[A-Za-z][A-Za-z0-9_]*', expr)`: maximal runs
starting with a letter, found left to right; `acc` holds the current run
reversed. -/
def identsAux : List Char → List Char → List String
  | [], acc => if acc.isEmpty then [] else [String.mk acc.reverse]
  | c :: cs, acc =>
    if acc.isEmpty then
      if isAlphaChar c then identsAux cs [c] else identsAux cs []
    else
      if isIdentChar c then identsAux cs (c :: acc)
      else String.mk acc.reverse :: identsAux cs []

/-- All regex matches of `[A-Za-z][A-Za-z0-9_]*` in a string, in order,
duplicates kept (as `re.findall` returns them). -/
def findIdentifiers (s : String) : List String := identsAux s.data []

/-- Python `str.strip()`: whitespace removed from both ends. -/
def stripStr (s : String) : String :=
  String.mk (((s.data.dropWhile Char.isWhitespace).reverse.dropWhile
    Char.isWhitespace).reverse)

/-- `expression.split('=')[1]`: the chunk between the first and second `=`;
`none` models the `IndexError` raised when the string has no `=`. -/
def exprAfterEq (s : String) : Option String :=
  if s.data.contains '=' then
    some (String.mk (((s.data.dropWhile (· ≠ '=')).drop 1).takeWhile (· ≠ '=')))
  else none

/-- The `custom_formulas` dictionary of a `MathematicalDecomposition`
instance, as an association list with Python-dict insertion semantics. -/
structure MathRegistry where
  custom_formulas : List (String × Formula)
deriving DecidableEq

/-- Python dict assignment `d[k] = v`: overwrite in place if the key
exists, else append. -/
def dictInsert : List (String × Formula) → String → Formula → List (String × Formula)
  | [], k, v => [(k, v)]
  | (k', v') :: rest, k, v =>
    if k' = k then (k, v) :: rest else (k', v') :: dictInsert rest k v

/-- `MathematicalDecomposition.create_custom_formula`
(src/modules/mathematical.py:294-321): splits the expression at `=`,
extracts the identifier occurrences with the regex, stores a `Formula`
whose `decomposition_rule` is the constant placeholder, and returns the
formula id.  `sp.sympify` is assumed to succeed (it raises on malformed
input, a path outside the embedding); its output feeds only
`_derive_decomposition_rule`, which ignores it. -/
def createCustomFormula (reg : MathRegistry) (expression : String)
    (nameArg : Option String) : Except String (MathRegistry × String) :=
  match exprAfterEq expression with
  | none => .error "IndexError: list index out of range"
  | some chunk =>
    let expr_str := stripStr chunk
    let varList := findIdentifiers expr_str
    let formula_id := nameArg.getD ("custom_" ++ toString (reg.custom_formulas.length + 1))
    let f : Formula := { name := formula_id, expression := expression,
                         vars := varList,
                         decomposition_rule := deriveDecompositionRule }
    .ok (⟨dictInsert reg.custom_formulas formula_id f⟩, formula_id)

/-- Which specialized handler `analyze` dispatches to; the handlers
themselves are embedded separately (`decomposeRatio`,
`decomposeCobbDouglas`, ...). -/
inductive DispatchTarget
  | ratio
  | product
  | product_simple
  | demographic_dividend
  | cobb_douglas
deriving DecidableEq

/-- Variable list used by `analyze`'s validation:
`self.formulas.get(formula_type) or self.custom_formulas[formula_type]`
(built-ins take precedence). -/
def formulaVariables (reg : MathRegistry) (ftype : String) : Option (List String) :=
  if ftype ∈ builtinFormulaNames then some (builtinVariables ftype)
  else (reg.custom_formulas.lookup ftype).map (·.vars)

/-- Validation and dispatch of `MathematicalDecomposition.analyze`
(src/modules/mathematical.py:64-102).  The input `data` maps each variable
name to its (period-1, period-2) float values, so the per-period presence
and numeric checks of `_validate_data` reduce to a lookup.  The final
`else` branch of the source calls `self._decompose_generic(...)` — a method
that is not defined anywhere in the class — so Python raises
`AttributeError` there. -/
def manalyze (reg : MathRegistry) (ftype : String) (data : List (String × ℚ × ℚ)) :
    Except String DispatchTarget :=
  match formulaVariables reg ftype with
  | none => .error "ValueError: formule non reconnue"
  | some vars =>
    if vars.any (fun v => (data.lookup v).isNone) then
      .error "ValueError: variable ou periode manquante"
    else if ftype = "ratio" then .ok .ratio
    else if ftype = "product" then .ok .product
    else if ftype = "product_simple" then .ok .product_simple
    else if ftype = "demographic_dividend" then .ok .demographic_dividend
    else if ftype = "cobb_douglas" then .ok .cobb_douglas
    else .error "AttributeError: _decompose_generic is not defined"

theorem dictInsert_lookup (l : List (String × Formula)) (k : String) (v : Formula) :
    (dictInsert l k v).lookup k = some v := by
  induction l with
  | nil => simp [dictInsert, List.lookup]
  | cons p rest ih =>
    rcases p with ⟨k', v'⟩
    by_cases h : k' = k
    · simp [dictInsert, h, List.lookup]
    · have hbe : (k == k') = false := by
        simp only [beq_eq_false_iff_ne, ne_eq]
        exact fun hk => h hk.symm
      simp only [dictInsert, if_neg h, List.lookup, hbe]
      exact ih

theorem createCustomFormula_lookup (reg : MathRegistry) (expr : String)
    (nameArg : Option String) (reg' : MathRegistry) (fid : String)
    (h : createCustomFormula reg expr nameArg = .ok (reg', fid)) :
    ∃ f : Formula, reg'.custom_formulas.lookup fid = some f ∧
      f.expression = expr ∧
      f.vars = findIdentifiers (stripStr ((exprAfterEq expr).getD "")) ∧
      f.decomposition_rule = deriveDecompositionRule := by
  cases he : exprAfterEq expr with
  | none => simp [createCustomFormula, he] at h
  | some chunk =>
    simp only [createCustomFormula, he, Except.ok.injEq, Prod.mk.injEq] at h
    obtain ⟨hreg, hfid⟩ := h
    refine ⟨⟨nameArg.getD ("custom_" ++ toString (reg.custom_formulas.length + 1)),
      expr, findIdentifiers (stripStr chunk), deriveDecompositionRule⟩,
      ?_, rfl, by simp [he], rfl⟩
    rw [← hreg, ← hfid]
    exact dictInsert_lookup _ _ _

/-- Claim C7 (amended): registering a custom formula stores its expression
and regex-extracted variable list, but the "derived" decomposition rule is
the constant placeholder string (no symbolic differentiation happens), and
a subsequent decompose call on the registered formula id fails with
`AttributeError` — the generic decomposer `_decompose_generic` the
dispatcher invokes is not defined anywhere in the class — instead of
returning midpoint-rule effects.  Refutation of the original claim:
`custom_formula_missing_generic_cex`. -/
theorem custom_formula_decompose_fails (reg reg' : MathRegistry) (expr : String)
    (nameArg : Option String) (fid : String) (data : List (String × ℚ × ℚ))
    (h : createCustomFormula reg expr nameArg = .ok (reg', fid))
    (hb : fid ∉ builtinFormulaNames)
    (hv : (((reg'.custom_formulas.lookup fid).map (·.vars)).getD []).any
      (fun v => (data.lookup v).isNone) = false) :
    manalyze reg' fid data = .error "AttributeError: _decompose_generic is not defined" ∧
    (reg'.custom_formulas.lookup fid).map (·.decomposition_rule) =
      some deriveDecompositionRule := by
  obtain ⟨f, hl, hexpr, hvars, hrule⟩ := createCustomFormula_lookup reg expr nameArg reg' fid h
  have hne : fid ≠ "ratio" ∧ fid ≠ "product" ∧ fid ≠ "product_simple" ∧
      fid ≠ "demographic_dividend" ∧ fid ≠ "cobb_douglas" := by
    simp only [builtinFormulaNames, List.mem_cons, List.not_mem_nil, or_false] at hb
    push_neg at hb
    exact hb
  have hv2 : (f.vars.any fun v => (data.lookup v).isNone) = false := by
    rw [hl] at hv
    simpa using hv
  constructor
  · unfold manalyze formulaVariables
    rw [if_neg hb, hl]
    simp only [Option.map]
    rw [if_neg (by simp [hv2]), if_neg hne.1, if_neg hne.2.1, if_neg hne.2.2.1,
      if_neg hne.2.2.2.1, if_neg hne.2.2.2.2]
  · rw [hl]
    simp [hrule]

/-- Claim C7 witness: the amended theorem applied to the registration of
`"Y = A*B/C"` in an empty registry and a decompose call with data for
`A`, `B`, `C`. -/
theorem custom_formula_decompose_fails_witness :
    manalyze ⟨[("custom_1",
        ⟨"custom_1", "Y = A*B/C", ["A", "B", "C"], deriveDecompositionRule⟩)]⟩ "custom_1"
      [("A", 1, 2), ("B", 3, 4), ("C", 5, 6)] =
      .error "AttributeError: _decompose_generic is not defined" ∧
    ((⟨[("custom_1",
        ⟨"custom_1", "Y = A*B/C", ["A", "B", "C"], deriveDecompositionRule⟩)]⟩ :
        MathRegistry).custom_formulas.lookup "custom_1").map (·.decomposition_rule) =
      some deriveDecompositionRule :=
  custom_formula_decompose_fails ⟨[]⟩ _ "Y = A*B/C" none "custom_1"
    [("A", 1, 2), ("B", 3, 4), ("C", 5, 6)] (by rfl) (by decide) (by rfl)

/-- Claim C7 counterexample: registering the expression string `"Y = A*B"`
succeeds and stores only the constant placeholder decomposition rule, and
the subsequent decompose call on the new formula id fails with
`AttributeError` (`_decompose_generic` does not exist) — it does not return
generic midpoint-rule effects for the variables `A`, `B`. -/
theorem custom_formula_missing_generic_cex :
    createCustomFormula ⟨[]⟩ "Y = A*B" none =
      .ok (⟨[("custom_1",
        ⟨"custom_1", "Y = A*B", ["A", "B"], deriveDecompositionRule⟩)]⟩, "custom_1") ∧
    manalyze ⟨[("custom_1",
        ⟨"custom_1", "Y = A*B", ["A", "B"], deriveDecompositionRule⟩)]⟩ "custom_1"
      [("A", 1, 2), ("B", 3, 4)] =
      .error "AttributeError: _decompose_generic is not defined" := by
  exact ⟨rfl, rfl⟩

/-!
## Module `modules/regression.py`, `RegressionDecomposition`

The OLS primitive is embedded for a single predictor, where the full-rank
least-squares solution has the closed form
`slope = sxy/sxx`, `intercept = ybar - slope * xbar`.
-/

/-- Mean of the first coordinates of a point list. -/
def xbar (pts : List (ℚ × ℚ)) : ℚ := (pts.map (·.1)).sum / pts.length

/-- Mean of the second coordinates of a point list. -/
def ybar (pts : List (ℚ × ℚ)) : ℚ := (pts.map (·.2)).sum / pts.length

/-- Centered second moment of the x coordinates. -/
def sxx (pts : List (ℚ × ℚ)) : ℚ := (pts.map fun p => (p.1 - xbar pts) ^ 2).sum

/-- Centered second moment of the y coordinates. -/
def syy (pts : List (ℚ × ℚ)) : ℚ := (pts.map fun p => (p.2 - ybar pts) ^ 2).sum

/-- Centered cross moment. -/
def sxy (pts : List (ℚ × ℚ)) : ℚ :=
  (pts.map fun p => (p.1 - xbar pts) * (p.2 - ybar pts)).sum

/-- Fallback slope of the `except` branch of `_run_regression`
(src/modules/regression.py:236-252):
`np.corrcoef(data[pred], y)[0,1] * (y.std() / data[pred].std())`.
With both variances nonzero this equals `cov(x,y)/var(x) = sxy/sxx` exactly
(the y-standard-deviations cancel and the matching ddof conventions cancel
in the ratio); when either variance is zero the float expression is
non-finite (`corrcoef` is `0/0` when a variance vanishes), modeled as
`none`. -/
def fallbackSlope (data : List (ℚ × ℚ)) : F :=
  if sxx data = 0 ∨ syy data = 0 then none else some (sxy data / sxx data)

/-- Subset of the `RegressionResult` dataclass the claims consume:
intercept and slope of the single predictor, `r_squared`, `nobs`. -/
structure RegressionResultM where
  intercept : F
  slope : F
  r_squared : F
  n_observations : ℕ
deriving DecidableEq

/-- `RegressionDecomposition._run_regression`
(src/modules/regression.py:220-252).  The `sm.OLS(y, X).fit()` attempt is
abstracted as the `fit` argument: `.ok (intercept, slope, r_squared)`
models a fit that returned, `.error ()` models any exception raised inside
the `try` block.  The `except` branch catches every exception, emits only
`warnings.warn`, and returns naive fallback coefficients —
`Intercept = y.mean()` and, when the data has more than one row, the
correlation-based slope, else `0` — so the function itself never raises. -/
def runRegression (fit : Except Unit (ℚ × ℚ × ℚ)) (data : List (ℚ × ℚ)) :
    Except String RegressionResultM :=
  match fit with
  | .ok (a, b, r2) =>
    .ok { intercept := some a, slope := some b, r_squared := some r2,
          n_observations := data.length }
  | .error _ =>
    .ok { intercept := qmean (data.map (·.2)),
          slope := if 1 < data.length then fallbackSlope data else some 0,
          r_squared := some 0,
          n_observations := data.length }

/-! ## Claim C5: no CollinearityError, silent fallback instead -/

/-- Claim C5 (amended): when the per-group OLS fit raises,
`_run_regression` does NOT fail with a `CollinearityError` (no such error
exists anywhere in the code): it catches the exception, emits a warning,
and silently returns naive fallback coefficients whose intercept is the
outcome mean and whose `r_squared` is 0.  For any fit outcome the call
returns `.ok`.  The original claim is refuted by
`run_regression_fallback_cex`. -/
theorem run_regression_never_raises (fit : Except Unit (ℚ × ℚ × ℚ))
    (data : List (ℚ × ℚ)) :
    ∃ r, runRegression fit data = .ok r ∧
      (fit = .error () → r.intercept = qmean (data.map (·.2)) ∧
        r.r_squared = some 0) := by
  cases fit with
  | ok t =>
    obtain ⟨a, b, r2⟩ := t
    exact ⟨_, rfl, by simp⟩
  | error u => exact ⟨_, rfl, fun _ => ⟨rfl, rfl⟩⟩

/-- Claim C5 witness: the amended theorem applied to a raised fit on a
two-point dataset. -/
theorem run_regression_never_raises_witness :
    ∃ r, runRegression (.error ()) [(0, 1), (1, 3)] = .ok r ∧
      ((.error () : Except Unit (ℚ × ℚ × ℚ)) = .error () →
        r.intercept = qmean ([((0 : ℚ), (1 : ℚ)), (1, 3)].map (·.2)) ∧
        r.r_squared = some 0) :=
  run_regression_never_raises (.error ()) [(0, 1), (1, 3)]

/-- Claim C5 counterexample: on the rows `x = [1,2,3], y = [2,4,6]`, a fit
that raises makes `_run_regression` return the fallback coefficients
`Intercept = 4` (the mean of y) and `slope = 2` with `r_squared = 0` — a
successful `.ok` result, not a `CollinearityError`, and the coefficient
values are the naive substitutes, not OLS output (the OLS intercept of
this perfectly linear data would be 0, not 4). -/
theorem run_regression_fallback_cex :
    runRegression (.error ()) [(1, 2), (2, 4), (3, 6)] =
      .ok { intercept := some 4, slope := some 2, r_squared := some 0,
            n_observations := 3 } := by
  have hq : qmean [(2 : ℚ), 4, 6] = some 4 := by
    rw [qmean, if_neg (by simp)]
    norm_num
  norm_num [runRegression, hq, fallbackSlope, sxx, syy, sxy, xbar, ybar]

/-! ## Claim C2: gap additivity of the Oaxaca-Blinder decomposition -/

/-- Closed-form single-predictor OLS `(intercept, slope)`, the value of
`sm.OLS(y, add_constant(x)).fit().params` for a full-rank design.  The
embedding covers well-posed fits (nonzero x-variance); outside that domain
statsmodels falls back to a pseudoinverse solution the claims do not
exercise, represented here by `none`, which then propagates through the
decomposition arithmetic. -/
def olsFit (pts : List (ℚ × ℚ)) : Option (ℚ × ℚ) :=
  if sxx pts = 0 then none
  else some (ybar pts - (sxy pts / sxx pts) * xbar pts, sxy pts / sxx pts)

/-- One row of the regression input: group label, single predictor value,
outcome value. -/
structure RegRow where
  group : String
  x : ℚ
  y : ℚ
deriving DecidableEq

/-- The `decomposition` block of the `oaxaca_blinder` return value. -/
structure OaxacaDecomp where
  total_difference : F
  explained_difference : F
  unexplained_difference : F
  explained_percent : F
  unexplained_percent : F
deriving DecidableEq

/-- Reference modes of `oaxaca_blinder`.  `neumark` (a pooled regression in
which the categorical group column itself is appended to the OLS predictor
list) is outside this single-predictor embedding and is not modeled; the
source's `else: raise ValueError` branch for unknown method strings is
subsumed by using an enumeration. -/
inductive OaxacaMethod
  | oaxaca
  | oaxaca_reverse
  | cotton
deriving DecidableEq

/-- `RegressionDecomposition.oaxaca_blinder` (src/modules/regression.py:31-142)
for one predictor, with `group1`/`group2` supplied explicitly and in-scope
OLS fits (so the try-branch of the regression helper succeeds and the
coefficients are the closed-form OLS values).  Per source: split by group,
fit per group, take predictor/outcome means, then per `method`
  - `oaxaca`: `explained = (X2-X1)*b1`, `unexplained = (a2-a1) + X2*(b2-b1)`;
  - `oaxaca_reverse`: `explained = (X2-X1)*b2`, `unexplained = (a2-a1) + X1*(b2-b1)`;
  - `cotton`: `b* = (n1*b1 + n2*b2)/(n1+n2)`, `explained = (X2-X1)*b*`,
    `unexplained = (a2-a1) + X1*(b2-b*) + X2*(b*-b1)`. -/
def oaxacaBlinder (df : List RegRow) (g1 g2 : String) (method : OaxacaMethod) :
    Except String OaxacaDecomp :=
  let d1 := df.filter fun r => r.group == g1
  let d2 := df.filter fun r => r.group == g2
  let m1 := olsFit (d1.map fun r => (r.x, r.y))
  let m2 := olsFit (d2.map fun r => (r.x, r.y))
  let a1 : F := m1.map (·.1)
  let b1 : F := m1.map (·.2)
  let a2 : F := m2.map (·.1)
  let b2 : F := m2.map (·.2)
  let X1 := qmean (d1.map (·.x))
  let X2 := qmean (d2.map (·.x))
  let Y1 := qmean (d1.map (·.y))
  let Y2 := qmean (d2.map (·.y))
  let dY := fsub Y2 Y1
  let ex_un : F × F :=
    match method with
    | .oaxaca =>
      (fmul (fsub X2 X1) b1, fadd (fsub a2 a1) (fmul X2 (fsub b2 b1)))
    | .oaxaca_reverse =>
      (fmul (fsub X2 X1) b2, fadd (fsub a2 a1) (fmul X1 (fsub b2 b1)))
    | .cotton =>
      let n1 : ℚ := d1.length
      let n2 : ℚ := d2.length
      let bstar := fdiv (fadd (fmul (some n1) b1) (fmul (some n2) b2)) (some (n1 + n2))
      (fmul (fsub X2 X1) bstar,
        fadd (fadd (fsub a2 a1) (fmul X1 (fsub b2 bstar))) (fmul X2 (fsub bstar b1)))
  .ok { total_difference := dY,
        explained_difference := ex_un.1,
        unexplained_difference := ex_un.2,
        explained_percent :=
          if dY = some 0 then some 0 else fmul (fdiv ex_un.1 dY) (some 100),
        unexplained_percent :=
          if dY = some 0 then some 0 else fmul (fdiv ex_un.2 dY) (some 100) }

/-- Claim C2 (code bug, failing input): for the five-row dataset
`g1 = {(x=0,y=0),(1,1)}`, `g2 = {(0,2),(1,2),(2,2)}` and
`method = "cotton"`, the code returns `explained = 1/5` and
`unexplained = 6/5`, whose sum `7/5` misses the total gap `3/2` by `1/10`,
far beyond the claimed 1e-6: the cotton branch pairs `X1` with `(b2 - b*)`
and `X2` with `(b* - b1)` — swapped relative to Cotton's additive formula —
so `explained + unexplained = total_gap` fails for this reference mode
(additivity would need `b* = (b1+b2)/2`, which fails when `n1 != n2`). -/
theorem oaxaca_cotton_additivity_violation :
    (oaxacaBlinder [⟨"g1", 0, 0⟩, ⟨"g1", 1, 1⟩, ⟨"g2", 0, 2⟩, ⟨"g2", 1, 2⟩,
        ⟨"g2", 2, 2⟩] "g1" "g2" .cotton).map
      (fun d => (d.total_difference, d.explained_difference,
        d.unexplained_difference)) =
      .ok (some (3 / 2), some (1 / 5), some (6 / 5)) ∧
    ¬ (|(1 / 5 + 6 / 5 : ℚ) - 3 / 2| ≤ 1 / 1000000) := by
  constructor
  · have hf1 : ([⟨"g1", 0, 0⟩, ⟨"g1", 1, 1⟩, ⟨"g2", 0, 2⟩, ⟨"g2", 1, 2⟩,
        ⟨"g2", 2, 2⟩] : List RegRow).filter (fun r => r.group == "g1") =
        [⟨"g1", 0, 0⟩, ⟨"g1", 1, 1⟩] := rfl
    have hf2 : ([⟨"g1", 0, 0⟩, ⟨"g1", 1, 1⟩, ⟨"g2", 0, 2⟩, ⟨"g2", 1, 2⟩,
        ⟨"g2", 2, 2⟩] : List RegRow).filter (fun r => r.group == "g2") =
        [⟨"g2", 0, 2⟩, ⟨"g2", 1, 2⟩, ⟨"g2", 2, 2⟩] := rfl
    have hm1 : olsFit [((0 : ℚ), (0 : ℚ)), (1, 1)] = some (0, 1) := by
      rw [olsFit, if_neg (by norm_num [sxx, xbar])]
      norm_num [sxx, sxy, xbar, ybar]
    have hm2 : olsFit [((0 : ℚ), (2 : ℚ)), (1, 2), (2, 2)] = some (2, 0) := by
      rw [olsFit, if_neg (by norm_num [sxx, xbar])]
      norm_num [sxx, sxy, xbar, ybar]
    have hq1 : qmean [(0 : ℚ), 1] = some (1 / 2) := by
      rw [qmean, if_neg (by simp)]
      norm_num
    have hq2 : qmean [(0 : ℚ), 1, 2] = some 1 := by
      rw [qmean, if_neg (by simp)]
      norm_num
    have hq4 : qmean [(2 : ℚ), 2, 2] = some 2 := by
      rw [qmean, if_neg (by simp)]
      norm_num
    simp only [oaxacaBlinder, hf1, hf2, List.map_cons, List.map_nil, hm1, hm2,
      hq1, hq2, hq4, List.length_cons, List.length_nil, Except.map]
    norm_num [fadd, fsub, fmul, fdiv]
  · rw [show (1 / 5 + 6 / 5 : ℚ) - 3 / 2 = -(1 / 10) by norm_num, abs_neg,
      abs_of_pos (by norm_num : (0 : ℚ) < 1 / 10)]
    norm_num

/-!
## Module `modules/structural.py`, `StructuralDecomposition.nested_decomposition`

Rows carry the hard-coded `'period'` column, the numeric columns (by name),
and the categorical grouping columns (by name); the embedding assumes the
referenced columns exist (a missing column would raise its own `KeyError`
in pandas before the code below is reached).
-/

/-- One row of the structural input. -/
structure SRow where
  period : String
  nums : String → ℚ
  attr : String → String

/-- Helper for `uniqueList`: `seen` accumulates already-emitted values. -/
def uniqueAux : List String → List String → List String
  | [], _ => []
  | c :: cs, seen =>
    if c ∈ seen then uniqueAux cs seen else c :: uniqueAux cs (c :: seen)

/-- pandas `.unique()`: values in first-occurrence order. -/
def uniqueList (l : List String) : List String := uniqueAux l []

/-- `df[outcome].mean()`: NaN on an empty frame. -/
def colMean (rows : List SRow) (outcome : String) : F :=
  qmean (rows.map (·.nums outcome))

/-- `len(df[df[group_var] == group]) / len(df) if len(df) > 0 else 0`. -/
def groupWeight (df : List SRow) (gvar g : String) : ℚ :=
  if df.length = 0 then 0
  else ((df.filter fun r => r.attr gvar == g).length : ℚ) / df.length

/-- `df[...][outcome].mean() if group in df[group_var].values else np.nan`. -/
def groupMeanIfPresent (df : List SRow) (outcome gvar g : String) : F :=
  if g ∈ df.map (·.attr gvar)
  then colMean (df.filter fun r => r.attr gvar == g) outcome else none

/-- Per-group entry built by `_decompose_by_group`
(src/modules/structural.py:76-101). -/
structure SGroupStats where
  mean_period1 : F
  mean_period2 : F
  change : F
  weight_period1 : ℚ
  weight_period2 : ℚ

/-- Return value of `_calculate_global_decomposition`
(src/modules/structural.py:103-137). -/
structure SGlobalStats where
  Y1 : F
  Y2 : F
  delta_Y : F
  composition_effect : F
  behavior_effect : F
  composition_percent : F
  behavior_percent : F

/-- Return value of `_decompose_by_group`: the per-group dictionary plus
its `'_global'` entry. -/
structure DecompByGroup where
  groups : List (String × SGroupStats)
  globalStats : SGlobalStats

/-- `StructuralDecomposition._calculate_global_decomposition`: global means,
then per group (the source iterates a Python set; traversal order affects
only float rounding, absent from this exact model) the composition
increment `((y1+y2)/2)*(w2-w1)` and behavior increment `((w1+w2)/2)*(y2-y1)`,
where a group absent from one period substitutes that period's overall
mean. -/
def calcGlobalDecomposition (df1 df2 : List SRow) (outcome gvar : String) :
    SGlobalStats :=
  let Y1 := colMean df1 outcome
  let Y2 := colMean df2 outcome
  let dY := fsub Y2 Y1
  let allGroups := uniqueList ((df1.map (·.attr gvar)) ++ (df2.map (·.attr gvar)))
  let comp := fsum (allGroups.map fun g =>
    let y1 := if g ∈ df1.map (·.attr gvar)
      then colMean (df1.filter fun r => r.attr gvar == g) outcome else Y1
    let y2 := if g ∈ df2.map (·.attr gvar)
      then colMean (df2.filter fun r => r.attr gvar == g) outcome else Y2
    fmul (fdiv (fadd y1 y2) (some 2))
      (some (groupWeight df2 gvar g - groupWeight df1 gvar g)))
  let beh := fsum (allGroups.map fun g =>
    let y1 := if g ∈ df1.map (·.attr gvar)
      then colMean (df1.filter fun r => r.attr gvar == g) outcome else Y1
    let y2 := if g ∈ df2.map (·.attr gvar)
      then colMean (df2.filter fun r => r.attr gvar == g) outcome else Y2
    fmul (some ((groupWeight df1 gvar g + groupWeight df2 gvar g) / 2))
      (fsub y2 y1))
  { Y1 := Y1, Y2 := Y2, delta_Y := dY,
    composition_effect := comp, behavior_effect := beh,
    composition_percent :=
      if dY = some 0 then some 0 else fmul (fdiv comp dY) (some 100),
    behavior_percent :=
      if dY = some 0 then some 0 else fmul (fdiv beh dY) (some 100) }

/-- `StructuralDecomposition._decompose_by_group`. -/
def decomposeByGroup (df1 df2 : List SRow) (outcome gvar : String) :
    DecompByGroup :=
  let gs := uniqueList ((df1.map (·.attr gvar)) ++ (df2.map (·.attr gvar)))
  { groups := gs.map fun g =>
      (g, { mean_period1 := groupMeanIfPresent df1 outcome gvar g,
            mean_period2 := groupMeanIfPresent df2 outcome gvar g,
            change := fsub (groupMeanIfPresent df2 outcome gvar g)
              (groupMeanIfPresent df1 outcome gvar g),
            weight_period1 := groupWeight df1 gvar g,
            weight_period2 := groupWeight df2 gvar g }),
    globalStats := calcGlobalDecomposition df1 df2 outcome gvar }

/-- The `results['levels']` dictionary: its possible keys are `'primary'`
and `'secondary'`; `none` models an absent key.  The source initializes it
to `{}`, assigns `'primary'`, and never creates `'secondary'`. -/
structure NestedLevels where
  primary : Option DecompByGroup
  secondary : Option (List (String × List (String × DecompByGroup)))

/-- Return value of `nested_decomposition` (never actually produced, see
`nested_decomposition_always_keyerror`). -/
structure NestedResult where
  primary_group : String
  secondary_groups : List String
  levels : NestedLevels
  hierarchical_contributions :
    (F × F) × List (String × List (String × (F × F)))

/-- `StructuralDecomposition.nested_decomposition`
(src/modules/structural.py:25-74): filter the two periods, store the
primary-level decomposition under `levels['primary']`, then for every
category of the primary grouping column compute the secondary
decompositions and execute
`results['levels']['secondary'][category] = category_results` — an index
into the `'secondary'` key that was never created, i.e. a `KeyError`.  If
the category loop is empty, `_calculate_hierarchical_contributions` still
reads `results['levels']['secondary']`, raising the same `KeyError`. -/
def nestedDecomposition (df : List SRow) (outcome primary_group : String)
    (secondary_groups : List String) (p1 p2 : String) :
    Except String NestedResult :=
  let df1 := df.filter fun r => r.period == p1
  let df2 := df.filter fun r => r.period == p2
  let primaryRes := decomposeByGroup df1 df2 outcome primary_group
  let levels0 : NestedLevels := { primary := some primaryRes, secondary := none }
  let categories := uniqueList (df.map (·.attr primary_group))
  match categories.foldlM (fun (lv : NestedLevels) cat =>
      let sub1 := df1.filter fun r => r.attr primary_group == cat
      let sub2 := df2.filter fun r => r.attr primary_group == cat
      let catRes := secondary_groups.map fun s =>
        (s, decomposeByGroup sub1 sub2 outcome s)
      match lv.secondary with
      | none => Except.error "KeyError: secondary"
      | some m => Except.ok { lv with secondary := some (m ++ [(cat, catRes)]) })
      levels0 with
  | .error e => .error e
  | .ok levels =>
    match levels.secondary with
    | none => .error "KeyError: secondary"
    | some m =>
      .ok { primary_group := primary_group, secondary_groups := secondary_groups,
            levels := levels,
            hierarchical_contributions :=
              ((primaryRes.globalStats.composition_percent,
                primaryRes.globalStats.behavior_percent),
               m.map fun p => (p.1, p.2.map fun q =>
                 (q.1, (q.2.globalStats.composition_percent,
                   q.2.globalStats.behavior_percent)))) }

/-! ## Claim C10: nested_decomposition always raises KeyError -/

/-- Claim C10 (confirmed): for every dataset whose primary grouping column
contains at least one category (i.e. every nonempty dataset, the column
values existing per row), `nested_decomposition` raises `KeyError` before
returning: the first loop iteration indexes
`results['levels']['secondary']`, a key that is never created, so no such
call ever returns the documented hierarchy result. -/
theorem nested_decomposition_always_keyerror (df : List SRow)
    (outcome primary_group : String) (secondary_groups : List String)
    (p1 p2 : String) (hne : df ≠ []) :
    nestedDecomposition df outcome primary_group secondary_groups p1 p2 =
      .error "KeyError: secondary" := by
  cases df with
  | nil => exact absurd rfl hne
  | cons r rest =>
    unfold nestedDecomposition
    simp only [uniqueList, List.map_cons, uniqueAux, List.not_mem_nil, if_false,
      List.foldlM]
    rfl

/-- Claim C10 witness: the theorem applied to a one-row dataset. -/
theorem nested_decomposition_always_keyerror_witness :
    ([⟨"2015", fun _ => 1, fun _ => "north"⟩] : List SRow) ≠ [] ∧
    nestedDecomposition [⟨"2015", fun _ => 1, fun _ => "north"⟩] "v" "region"
      ["sex"] "2015" "2020" = .error "KeyError: secondary" :=
  ⟨by simp, nested_decomposition_always_keyerror _ _ _ _ _ _ (by simp)⟩

end DecompApp
